import Mathlib

/-!
Shallow embedding of the GPXParser library (src/src/index.ts): the XML tree
adapter it builds on, the waypoint/route-point/track-point parsers with their
JavaScript number semantics, the geometry engine (haversine distance, route
distance, elevation statistics) and the GeoJSON projector, together with
theorems settling the specification's claims about them.
-/

/-- Semantic values of a JavaScript number expression as they arise in this
library: NaN, the two infinities, or a finite value. Finite values are
modelled as rationals: every value the parsers produce is a parsed decimal
literal, and the elevation statistics compare against zero exactly. -/
inductive JSNum where
  | nan
  | negInf
  | posInf
  | num (q : ℚ)
deriving DecidableEq

/-- Result of the ECMAScript Date constructor applied to a string, a platform
primitive external to the repository. A Date object is always produced and the
constructor never throws; a string the platform cannot parse yields an Invalid
Date (a Date whose time value is NaN). The model recognises the ISO 8601 shape
YYYY-MM-DDTHH:MM:SSZ with all-digit components; every other string yields the
invalid date. -/
inductive JSDate where
  | invalid
  | valid (year month day hour minute second : ℕ)
deriving DecidableEq

/-- Numeric value of a digit string. -/
def digitsToNat (cs : List Char) : ℕ :=
  cs.foldl (fun a c => a * 10 + (c.toNat - 48)) 0

/-- Model of the Date constructor on strings (see JSDate). -/
def jsNewDate (str : String) : JSDate :=
  match str.toList with
  | [y1, y2, y3, y4, '-', m1, m2, '-', d1, d2, 'T', h1, h2, ':', n1, n2, ':', s1, s2, 'Z'] =>
      if [y1, y2, y3, y4, m1, m2, d1, d2, h1, h2, n1, n2, s1, s2].all Char.isDigit then
        JSDate.valid (digitsToNat [y1, y2, y3, y4]) (digitsToNat [m1, m2])
          (digitsToNat [d1, d2]) (digitsToNat [h1, h2]) (digitsToNat [n1, n2])
          (digitsToNat [s1, s2])
      else JSDate.invalid
  | _ => JSDate.invalid

/-- Whitespace skipped by the ECMAScript parseFloat primitive (the forms that
can occur in attribute or element text). -/
def isJsSpace (c : Char) : Bool :=
  c == ' ' || c == '\t' || c == '\n' || c == '\r' || c == '\x0c'

/-- Optional exponent part of a decimal literal: consumed only when an e or E
is directly followed by an optionally signed digit string, per ECMAScript's
longest-valid-prefix rule (so "1e" parses as 1, the exponent unconsumed). -/
def applyExponent (q : ℚ) (cs : List Char) : ℚ :=
  match cs with
  | c :: rest =>
      if c == 'e' || c == 'E' then
        let signed : ℤ × List Char :=
          match rest with
          | '+' :: r => (1, r)
          | '-' :: r => (-1, r)
          | _ => (1, rest)
        let ds := signed.2.takeWhile Char.isDigit
        if ds.isEmpty then q
        else q * (10 : ℚ) ^ (signed.1 * (digitsToNat ds : ℤ))
      else q
  | [] => q

/-- Longest decimal-literal prefix of the character list, or none when no
valid prefix exists: digits, an optional fraction, an optional exponent. -/
def parseDecimal (cs : List Char) : Option ℚ :=
  let intDs := cs.takeWhile Char.isDigit
  let rest1 := cs.dropWhile Char.isDigit
  match rest1 with
  | '.' :: rest2 =>
      let fracDs := rest2.takeWhile Char.isDigit
      let rest3 := rest2.dropWhile Char.isDigit
      if intDs.isEmpty && fracDs.isEmpty then none
      else
        some (applyExponent
          ((digitsToNat intDs : ℚ) + (digitsToNat fracDs : ℚ) / (10 : ℚ) ^ fracDs.length)
          rest3)
  | _ =>
      if intDs.isEmpty then none
      else some (applyExponent (digitsToNat intDs : ℚ) rest1)

/-- Check that the first list is an initial segment of the second. -/
def charsStartWith : List Char → List Char → Bool
  | [], _ => true
  | _ :: _, [] => false
  | p :: ps, c :: cs => p == c && charsStartWith ps cs

/-- ECMAScript parseFloat: skip whitespace, read an optional sign, then either
the literal Infinity or the longest decimal-literal prefix; NaN when no valid
prefix exists. Hexadecimal is not recognised (parseFloat of "0x10" is 0). -/
def jsParseFloat (s : String) : JSNum :=
  let cs := s.toList.dropWhile isJsSpace
  let signed : Bool × List Char :=
    match cs with
    | '+' :: r => (false, r)
    | '-' :: r => (true, r)
    | _ => (false, cs)
  if charsStartWith "Infinity".toList signed.2 then
    if signed.1 then JSNum.negInf else JSNum.posInf
  else
    match parseDecimal signed.2 with
    | none => JSNum.nan
    | some q => JSNum.num (if signed.1 then -q else q)

/-- Node of the XML document tree produced by the external tree adapter (spec
section 6): tag name, attribute list, the node's textual content (what
innerHTML yields for the leaf elements this library reads) and the child
elements in document order. -/
inductive XNode where
  | mk (tagName : String) (attributes : List (String × String)) (innerText : String)
      (childNodes : List XNode)

/-- Tag name of a node. -/
def XNode.tag : XNode → String
  | .mk t _ _ _ => t

/-- Attribute list of a node. -/
def XNode.attrs : XNode → List (String × String)
  | .mk _ a _ _ => a

/-- Textual content of a node (innerHTML for the leaf elements read here). -/
def XNode.text : XNode → String
  | .mk _ _ s _ => s

/-- Child elements of a node in document order. -/
def XNode.children : XNode → List XNode
  | .mk _ _ _ cs => cs

/-- Model of getAttribute: the attribute's value, or none when absent. -/
def XNode.getAttr (n : XNode) (name : String) : Option String :=
  (n.attrs.find? (fun a => a.1 == name)).map (fun a => a.2)

mutual

/-- All descendant elements of a node in document order (pre-order), the
traversal that querySelectorAll with a type selector performs. -/
def XNode.descendants : XNode → List XNode
  | .mk _ _ _ cs => descendantsOfList cs

/-- Descendants of a forest, in document order. -/
def descendantsOfList : List XNode → List XNode
  | [] => []
  | c :: cs => c :: (XNode.descendants c ++ descendantsOfList cs)

end

/-- Model of node.querySelectorAll with a tag-name selector on an XML
document: every descendant with that tag, in document order. -/
def querySelectorAll (node : XNode) (tagName : String) : List XNode :=
  node.descendants.filter (fun e => e.tag == tagName)

/-- Model of node.querySelector with a tag-name selector: the first matching
descendant, or none. -/
def querySelector (node : XNode) (tagName : String) : Option XNode :=
  (querySelectorAll node tagName).head?

/-- GPXParser.getElementValue (index.ts lines 373-384): the innerHTML of the
first matching descendant, or null when there is none. -/
def getElementValue (parent : XNode) (needle : String) : Option String :=
  (querySelector parent needle).map XNode.text

/-- GPXParser.queryDirectSelector (index.ts lines 394-409): collect every
matching descendant and start from the first; when more than one matched, walk
the immediate children and keep the last immediate child with the tag name
(leaving the first matched descendant in place when no immediate child
matches). -/
def queryDirectSelector (parent : XNode) (needle : String) : Option XNode :=
  let elements := querySelectorAll parent needle
  let firstElem := elements.head?
  if 1 < elements.length then
    match (parent.children.filter (fun e => e.tag == needle)).getLast? with
    | some e => some e
    | none => firstElem
  else firstElem

/-- JavaScript string coercion (a || b) on a nullable string: null and the
empty string are falsy and give b. -/
def jsOrString (a : Option String) (b : String) : String :=
  match a with
  | none => b
  | some s => if s = "" then b else s

/-- Point record as the parsers build it (the Point type of index.ts at the
parsing boundary): lat and lon are whatever parseFloat produced, including
possibly NaN; ele is null or a number; time is null or a Date object. -/
structure ParsedPoint where
  lat : JSNum
  lon : JSNum
  ele : Option JSNum
  name : Option String := none
  sym : Option String := none
  cmt : Option String := none
  desc : Option String := none
  time : Option JSDate := none
deriving DecidableEq

/-- Time field of a point (index.ts line 161, 197, 239): null when the time
element is absent or its text empty, otherwise the Date object the platform
builds from the text (never an exception; see jsNewDate). -/
def jsTimeField (t : Option String) : Option JSDate :=
  match t with
  | none => none
  | some s => if s = "" then none else some (jsNewDate s)

/-- Waypoint parsing (index.ts lines 149-165): ele is parseFloat of the ele
text defaulted to "0", kept only when not NaN; lat and lon are parseFloat of
the attribute defaulted to the empty string (so an absent attribute parses to
NaN). -/
def parseWpt (wpt : XNode) : ParsedPoint :=
  let ele := jsParseFloat (jsOrString (getElementValue wpt "ele") "0")
  let time := getElementValue wpt "time"
  { name := getElementValue wpt "name"
    sym := getElementValue wpt "sym"
    lat := jsParseFloat (jsOrString (wpt.getAttr "lat") "")
    lon := jsParseFloat (jsOrString (wpt.getAttr "lon") "")
    ele := if ele = JSNum.nan then none else some ele
    cmt := getElementValue wpt "cmt"
    desc := getElementValue wpt "desc"
    time := jsTimeField time }

/-- Route point parsing (index.ts lines 187-201): lat and lon are parseFloat
of the attribute defaulted to "0" (so only an absent or empty attribute is
defaulted; a non-empty unparsable attribute still yields NaN); ele and time as
for waypoints. -/
def parseRtept (rtept : XNode) : ParsedPoint :=
  let floatValue := jsParseFloat (jsOrString (getElementValue rtept "ele") "0")
  let time := getElementValue rtept "time"
  { lat := jsParseFloat (jsOrString (rtept.getAttr "lat") "0")
    lon := jsParseFloat (jsOrString (rtept.getAttr "lon") "0")
    ele := if floatValue = JSNum.nan then none else some floatValue
    time := jsTimeField time }

/-- Track point parsing (index.ts lines 230-243), identical in body to route
point parsing. -/
def parseTrkpt (trkpt : XNode) : ParsedPoint :=
  let floatValue := jsParseFloat (jsOrString (getElementValue trkpt "ele") "0")
  let time := getElementValue trkpt "time"
  { lat := jsParseFloat (jsOrString (trkpt.getAttr "lat") "0")
    lon := jsParseFloat (jsOrString (trkpt.getAttr "lon") "0")
    ele := if floatValue = JSNum.nan then none else some floatValue
    time := jsTimeField time }

/-- Point of the parsed model as the geometry engine and the GeoJSON
projector consume it (the Point type of index.ts on the geometry side):
coordinates at real precision, elevation a rational or null. -/
structure Point where
  lat : ℝ
  lon : ℝ
  ele : Option ℚ
  name : Option String := none
  sym : Option String := none
  cmt : Option String := none
  desc : Option String := none
  time : Option JSDate := none

/-- RouteDistance record of index.ts: the total distance and the cumulative
distances. -/
structure RouteDistance where
  total : ℝ
  cumul : List ℝ

/-- ElevationStats record of index.ts; every field is number-or-null. -/
structure ElevationStats where
  max : Option JSNum
  min : Option JSNum
  pos : Option JSNum
  neg : Option JSNum
  avg : Option JSNum
deriving DecidableEq

/-- Link record of index.ts. -/
structure Link where
  href : String
  text : Option String
  type : Option String

/-- AuthorEmail record of index.ts. -/
structure AuthorEmail where
  id : String
  domain : String

/-- Author record of index.ts. -/
structure Author where
  name : Option String
  email : AuthorEmail
  link : Link

/-- Metadata record of index.ts. -/
structure Metadata where
  name : Option String
  desc : Option String
  time : Option String
  author : Author
  link : Link

/-- Route record of index.ts (identical in shape to Track). -/
structure Route where
  name : Option String
  cmt : Option String
  desc : Option String
  src : Option String
  number : Option String
  type : Option String
  link : Link
  distance : RouteDistance
  elevation : ElevationStats
  slopes : List ℝ
  points : List Point

/-- Track record of index.ts. -/
structure Track where
  name : Option String
  cmt : Option String
  desc : Option String
  src : Option String
  number : Option String
  type : Option String
  link : Link
  distance : RouteDistance
  elevation : ElevationStats
  slopes : List ℝ
  points : List Point

/-- The parsed model a GPXParser instance exposes. -/
structure GPX where
  metadata : Metadata
  waypoints : List Point
  routes : List Route
  tracks : List Track

/-- Four-quadrant arctangent, the Math.atan2 primitive at real precision. -/
noncomputable def atan2 (y x : ℝ) : ℝ :=
  if 0 < x then Real.arctan (y / x)
  else if x = 0 then
    if 0 < y then Real.pi / 2 else if y < 0 then -(Real.pi / 2) else 0
  else if 0 ≤ y then Real.arctan (y / x) + Real.pi
  else Real.arctan (y / x) - Real.pi

/-- GPXParser.calcDistanceBetween (index.ts lines 438-448): haversine
distance with Earth radius 6371000 metres, at real precision. -/
noncomputable def calcDistanceBetween (wpt1 wpt2 : Point) : ℝ :=
  let rad := Real.pi / 180
  let lat1 := wpt1.lat * rad
  let lat2 := wpt2.lat * rad
  let sinDLat := Real.sin ((wpt2.lat - wpt1.lat) * rad / 2)
  let sinDLon := Real.sin ((wpt2.lon - wpt1.lon) * rad / 2)
  let a := sinDLat * sinDLat + Real.cos lat1 * Real.cos lat2 * sinDLon * sinDLon
  let c := 2 * atan2 (Real.sqrt a) (Real.sqrt (1 - a))
  6371000 * c

/-- Distances of the adjacent point pairs, in order: the values
calcDistanceBetween is applied to inside calcRouteDistance's loop. -/
noncomputable def segDists : List Point → List ℝ
  | p :: q :: rest => calcDistanceBetween p q :: segDists (q :: rest)
  | _ => []

/-- The accumulation calcRouteDistance's loop performs: running
totalDistance through the segment distances, recording the running total
after each segment. Returns the final total and the recorded list. -/
def distLoop (acc : ℝ) : List ℝ → ℝ × List ℝ
  | [] => (acc, [])
  | d :: ds =>
      let t := acc + d
      let rest := distLoop t ds
      (rest.1, t :: rest.2)

/-- GPXParser.calcRouteDistance (index.ts lines 418-428): accumulate the
distances of adjacent pairs, then write the final total at index
points.length - 1 (for a nonempty sequence this appends one entry; for the
empty sequence the write at index -1 leaves the array empty). -/
noncomputable def calcRouteDistance (points : List Point) : RouteDistance :=
  let res := distLoop 0 (segDists points)
  { total := res.1
    cumul :=
      match points with
      | [] => []
      | _ => res.2 ++ [res.1] }

/-- JavaScript coercion (ele || 0) on the nullable elevation: null (and 0
itself) give 0. -/
def jsOrZeroQ : Option ℚ → ℚ
  | none => 0
  | some v => v

/-- JavaScript coercion (value || null) applied to a number: NaN and 0 are
falsy and become null; everything else (including the infinities) is kept. -/
def jsOrNull (v : JSNum) : Option JSNum :=
  match v with
  | JSNum.nan => none
  | JSNum.num q => if q = 0 then none else some (JSNum.num q)
  | x => some x

/-- Math.max applied to a spread list: minus infinity on the empty list. -/
def jsMathMax : List ℚ → JSNum
  | [] => JSNum.negInf
  | x :: xs => JSNum.num (xs.foldl max x)

/-- Math.min applied to a spread list: plus infinity on the empty list. -/
def jsMathMin : List ℚ → JSNum
  | [] => JSNum.posInf
  | x :: xs => JSNum.num (xs.foldl min x)

/-- JavaScript division sum / length as calcElevationStats uses it: NaN for
0 / 0, a signed infinity for nonzero / 0, the exact quotient otherwise. -/
def jsDivLen (s : ℚ) (n : ℕ) : JSNum :=
  if n = 0 then
    if s = 0 then JSNum.nan else if 0 < s then JSNum.posInf else JSNum.negInf
  else JSNum.num (s / n)

/-- First loop of calcElevationStats (index.ts lines 462-475): fold the
positive-only delta sum dp and negative-only delta sum dm over adjacent
pairs, reading each elevation through the (ele || 0) coercion. (The source's
null test on the coerced values is always true and is dropped.) -/
def deltaLoop (dp dm : ℚ) : List Point → ℚ × ℚ
  | p :: q :: rest =>
      let diff := jsOrZeroQ q.ele - jsOrZeroQ p.ele
      if diff < 0 then deltaLoop dp (dm + diff) (q :: rest)
      else if 0 < diff then deltaLoop (dp + diff) dm (q :: rest)
      else deltaLoop dp dm (q :: rest)
  | _ => (dp, dm)

/-- Second loop of calcElevationStats (index.ts lines 477-488): push every
non-null elevation and its running sum. -/
def elevLoop (elevation : List ℚ) (sum : ℚ) : List Point → List ℚ × ℚ
  | [] => (elevation, sum)
  | p :: ps =>
      match p.ele with
      | none => elevLoop elevation sum ps
      | some _ =>
          let e := jsOrZeroQ p.ele
          elevLoop (elevation ++ [e]) (sum + e) ps

/-- GPXParser.calcElevationStats (index.ts lines 458-497). -/
def calcElevationStats (points : List Point) : ElevationStats :=
  let dd := deltaLoop 0 0 points
  let es := elevLoop [] 0 points
  { max := jsOrNull (jsMathMax es.1)
    min := jsOrNull (jsMathMin es.1)
    pos := jsOrNull (JSNum.num |dd.1|)
    neg := jsOrNull (JSNum.num |dd.2|)
    avg := jsOrNull (jsDivLen es.2 es.1.length) }

/-- Properties of a LineString feature in toGeoJSON (index.ts lines 548-556
and 573-581). -/
structure LineStringProps where
  name : Option String
  cmt : Option String
  desc : Option String
  src : Option String
  number : Option String
  link : Link
  type : Option String

/-- Properties of a waypoint Point feature in toGeoJSON (lines 598-603). -/
structure PointProps where
  name : Option String
  sym : Option String
  cmt : Option String
  desc : Option String

/-- Feature of the produced FeatureCollection: a LineString with its
coordinate triplets, or a Point with a single triplet. -/
inductive Feature where
  | lineString (coordinates : List (ℝ × ℝ × ℝ)) (properties : LineStringProps)
  | point (coordinates : ℝ × ℝ × ℝ) (properties : PointProps)

/-- GeoJSON object of index.ts: the collection type tag, the feature list,
and the document metadata as top-level properties. -/
structure GeoJSON where
  type : String
  features : List Feature
  properties : Metadata

/-- Elevation of a coordinate triplet: the (pt.ele || 0) coercion cast into
the coordinate field. -/
def eleOrZero (e : Option ℚ) : ℝ :=
  ((jsOrZeroQ e : ℚ) : ℝ)

/-- Track loop body of toGeoJSON (index.ts lines 541-564): build the
LineString feature, filling its coordinates point by point, and push it. -/
def pushTrackFeature (gj : GeoJSON) (track : Track) : GeoJSON :=
  let feature := Feature.lineString
    (track.points.foldl (fun cs pt => cs ++ [(pt.lon, pt.lat, eleOrZero pt.ele)]) [])
    ⟨track.name, track.cmt, track.desc, track.src, track.number, track.link, track.type⟩
  { gj with features := gj.features ++ [feature] }

/-- Route loop body of toGeoJSON (index.ts lines 566-589), identical in body
to the track loop. -/
def pushRouteFeature (gj : GeoJSON) (route : Route) : GeoJSON :=
  let feature := Feature.lineString
    (route.points.foldl (fun cs pt => cs ++ [(pt.lon, pt.lat, eleOrZero pt.ele)]) [])
    ⟨route.name, route.cmt, route.desc, route.src, route.number, route.link, route.type⟩
  { gj with features := gj.features ++ [feature] }

/-- Waypoint loop body of toGeoJSON (index.ts lines 591-607). -/
def pushWptFeature (gj : GeoJSON) (pt : Point) : GeoJSON :=
  let feature := Feature.point (pt.lon, pt.lat, eleOrZero pt.ele)
    ⟨pt.name, pt.sym, pt.cmt, pt.desc⟩
  { gj with features := gj.features ++ [feature] }

/-- GPXParser.toGeoJSON (index.ts lines 528-610): start from an empty
FeatureCollection carrying the metadata fields, then push one feature per
track, per route, and per waypoint, in that order. -/
def toGeoJSON (g : GPX) : GeoJSON :=
  let geoJSON : GeoJSON :=
    { type := "FeatureCollection"
      features := []
      properties :=
        { name := g.metadata.name
          desc := g.metadata.desc
          time := g.metadata.time
          author := g.metadata.author
          link := g.metadata.link } }
  let afterTracks := g.tracks.foldl pushTrackFeature geoJSON
  let afterRoutes := g.routes.foldl pushRouteFeature afterTracks
  g.waypoints.foldl pushWptFeature afterRoutes

/-- Waypoint element with lat and lon attributes but no ele child (concrete
input for claim C3). -/
def wptNoEle : XNode := XNode.mk "wpt" [("lat", "1"), ("lon", "2")] "" []

/-- Route point element whose lat attribute is present but not numeric
(concrete input for claim C4). -/
def rteptBadLat : XNode := XNode.mk "rtept" [("lat", "abc"), ("lon", "4")] "" []

/-- Waypoint element whose time child holds text no timestamp parser accepts
(concrete input for claim C5). -/
def wptBadTime : XNode := XNode.mk "wpt" [] "" [XNode.mk "time" [] "not-a-timestamp" []]

/-- Leaf type element with text A. -/
def typeNodeA : XNode := XNode.mk "type" [] "A" []

/-- Leaf type element with text B. -/
def typeNodeB : XNode := XNode.mk "type" [] "B" []

/-- Link element wrapping typeNodeA. -/
def linkNodeA : XNode := XNode.mk "link" [] "" [typeNodeA]

/-- Link element wrapping typeNodeB. -/
def linkNodeB : XNode := XNode.mk "link" [] "" [typeNodeB]

/-- Route element whose only type descendants are nested inside its two link
children, so no immediate child is a type element (concrete input for claim
C6). -/
def rteNestedTypes : XNode := XNode.mk "rte" [] "" [linkNodeA, linkNodeB]

/-- Route element with a direct type child next to a link wrapping another
type element (a second concrete input, the disambiguation case C6 is about). -/
def rteDirectType : XNode := XNode.mk "rte" [] "" [linkNodeA, typeNodeB]

/-- Concrete point at latitude 1, longitude 2 with no optional data. -/
def pA : Point := ⟨1, 2, none, none, none, none, none, none⟩

/-- Concrete point with the same coordinates as pA but different elevation,
name and time. -/
def pA' : Point := ⟨1, 2, some 7, some "n", none, none, none, some JSDate.invalid⟩

/-- Concrete point at latitude 3, longitude 4 with elevation 5. -/
def pB : Point := ⟨3, 4, some 5, none, none, none, none, none⟩

/-! ## Theorems -/

/-- Evaluation fact: parseFloat of the defaulted text "0" is the number 0. -/
lemma jsParseFloat_zero : jsParseFloat "0" = JSNum.num 0 := by decide

/-- C3 counterexample. The claim says a point's ele is null when the ele
child element is absent; on the code an absent ele child defaults the text to
"0", which parses to the number 0, so the parsed ele is 0, not null. -/
theorem parseWpt_absent_ele_zero :
    getElementValue wptNoEle "ele" = none ∧
    (parseWpt wptNoEle).ele = some (JSNum.num 0) ∧
    some (JSNum.num 0) ≠ (none : Option JSNum) := by
  refine ⟨rfl, by decide, by decide⟩

/-- C3 amended: for waypoint, route point and track point alike, the parsed
ele is null exactly when the ele child is present with non-empty text that
parseFloat cannot parse; an absent ele child, or one with empty text, yields
the number 0 (the text is defaulted to "0" before parsing), so ele equal to 0
does not imply the source text was "0". -/
theorem point_ele_null_characterisation (node : XNode) :
    ((parseWpt node).ele = none ↔
      ∃ s, getElementValue node "ele" = some s ∧ s ≠ "" ∧ jsParseFloat s = JSNum.nan) ∧
    ((parseRtept node).ele = (parseWpt node).ele ∧
      (parseTrkpt node).ele = (parseWpt node).ele) ∧
    ((getElementValue node "ele" = none ∨ getElementValue node "ele" = some "") →
      (parseWpt node).ele = some (JSNum.num 0)) := by
  refine ⟨?_, ⟨rfl, rfl⟩, ?_⟩
  · cases h : getElementValue node "ele" with
    | none => simp [parseWpt, jsOrString, h, jsParseFloat_zero]
    | some s =>
        by_cases hs : s = ""
        · subst hs
          simp [parseWpt, jsOrString, h, jsParseFloat_zero]
        · by_cases hn : jsParseFloat s = JSNum.nan
          · simp [parseWpt, jsOrString, h, hs, hn]
          · simp [parseWpt, jsOrString, h, hs, hn]
  · intro h
    rcases h with h | h <;> simp [parseWpt, jsOrString, h, jsParseFloat_zero]

/-- C4 counterexample. The claim says a missing or unparsable lat or lon
attribute of a route or track point yields 0 and never NaN; on the code only
a missing (or empty) attribute is defaulted to "0", while a present,
non-empty, unparsable attribute reaches parseFloat unchanged and yields NaN
with no guard. -/
theorem parseRtept_unparsable_lat_nan :
    rteptBadLat.getAttr "lat" = some "abc" ∧
    (parseRtept rteptBadLat).lat = JSNum.nan ∧
    (parseTrkpt rteptBadLat).lat = JSNum.nan ∧
    JSNum.nan ≠ JSNum.num 0 := by
  refine ⟨by decide, by decide, by decide, by decide⟩

/-- C4 amended: for route and track points, a missing or empty lat or lon
attribute yields the number 0 (the text is defaulted to "0"); a present
non-empty attribute is handed to parseFloat unchanged, so an unparsable one
yields NaN. -/
theorem point_latlon_default_characterisation (node : XNode) :
    ((node.getAttr "lat" = none ∨ node.getAttr "lat" = some "") →
      (parseRtept node).lat = JSNum.num 0 ∧ (parseTrkpt node).lat = JSNum.num 0) ∧
    ((node.getAttr "lon" = none ∨ node.getAttr "lon" = some "") →
      (parseRtept node).lon = JSNum.num 0 ∧ (parseTrkpt node).lon = JSNum.num 0) ∧
    (∀ s, node.getAttr "lat" = some s → s ≠ "" →
      (parseRtept node).lat = jsParseFloat s ∧ (parseTrkpt node).lat = jsParseFloat s) ∧
    (∀ s, node.getAttr "lon" = some s → s ≠ "" →
      (parseRtept node).lon = jsParseFloat s ∧ (parseTrkpt node).lon = jsParseFloat s) := by
  refine ⟨?_, ?_, ?_, ?_⟩
  · intro h
    rcases h with h | h <;>
      exact ⟨by simp [parseRtept, jsOrString, h, jsParseFloat_zero],
             by simp [parseTrkpt, jsOrString, h, jsParseFloat_zero]⟩
  · intro h
    rcases h with h | h <;>
      exact ⟨by simp [parseRtept, jsOrString, h, jsParseFloat_zero],
             by simp [parseTrkpt, jsOrString, h, jsParseFloat_zero]⟩
  · intro s h hs
    exact ⟨by simp [parseRtept, jsOrString, h, hs],
           by simp [parseTrkpt, jsOrString, h, hs]⟩
  · intro s h hs
    exact ⟨by simp [parseRtept, jsOrString, h, hs],
           by simp [parseTrkpt, jsOrString, h, hs]⟩

/-- C5 counterexample. The claim says a present but unparsable timestamp text
makes parsing fail hard rather than produce a model with some time value; on
the code the Date constructor never throws, so the point is built and its
time field holds an Invalid Date object. -/
theorem parseWpt_bad_time_invalid_date :
    getElementValue wptBadTime "time" = some "not-a-timestamp" ∧
    (parseWpt wptBadTime).time = some JSDate.invalid := by
  refine ⟨by decide, by decide⟩

/-- C5 amended: point parsing is total. For waypoint, route point and track
point alike, the time field is null exactly when the time child is absent or
its text is empty; any other text is handed to the Date constructor, which
never throws and yields a Date object (an Invalid Date when the text is not a
parsable timestamp). -/
theorem point_time_total_characterisation (node : XNode) :
    ((parseWpt node).time = none ↔
      getElementValue node "time" = none ∨ getElementValue node "time" = some "") ∧
    (∀ s, getElementValue node "time" = some s → s ≠ "" →
      (parseWpt node).time = some (jsNewDate s)) ∧
    ((parseRtept node).time = (parseWpt node).time ∧
      (parseTrkpt node).time = (parseWpt node).time) := by
  refine ⟨?_, ?_, rfl, rfl⟩
  · cases h : getElementValue node "time" with
    | none => simp [parseWpt, jsTimeField, h]
    | some s =>
        by_cases hs : s = ""
        · subst hs
          simp [parseWpt, jsTimeField, h]
        · simp [parseWpt, jsTimeField, h, hs]
  · intro s h hs
    simp [parseWpt, jsTimeField, h, hs]

/-- C6 counterexample. The claim says that with more than one matching
descendant, queryDirectSelector searches only the immediate children and
returns the last immediate child with the tag name; on the code, when several
descendants match but no immediate child does, the first matched descendant
is returned instead. -/
theorem queryDirectSelector_nested_fallback_cex :
    1 < (querySelectorAll rteNestedTypes "type").length ∧
    (rteNestedTypes.children.filter (fun e => e.tag == "type")).getLast? = none ∧
    queryDirectSelector rteNestedTypes "type" = some typeNodeA ∧
    typeNodeA ∉ rteNestedTypes.children := by
  refine ⟨by decide, by rfl, by rfl, ?_⟩
  intro h
  simp [rteNestedTypes, linkNodeA, linkNodeB, typeNodeA, typeNodeB, XNode.children] at h

/-- C6 amended: when at most one descendant matches, queryDirectSelector
returns the first (hence only, or no) match; when more than one matches, it
returns the last immediate child with the tag name if one exists, and
otherwise falls back to the first matched descendant. -/
theorem queryDirectSelector_spec (parent : XNode) (needle : String) :
    ((querySelectorAll parent needle).length ≤ 1 →
      queryDirectSelector parent needle = (querySelectorAll parent needle).head?) ∧
    (∀ e, 1 < (querySelectorAll parent needle).length →
      (parent.children.filter (fun x => x.tag == needle)).getLast? = some e →
      queryDirectSelector parent needle = some e) ∧
    (1 < (querySelectorAll parent needle).length →
      (parent.children.filter (fun x => x.tag == needle)).getLast? = none →
      queryDirectSelector parent needle = (querySelectorAll parent needle).head?) ∧
    (querySelectorAll parent needle = [] → queryDirectSelector parent needle = none) := by
  refine ⟨?_, ?_, ?_, ?_⟩
  · intro h
    simp [queryDirectSelector, Nat.not_lt.mpr h]
  · intro e hlen hlast
    simp [queryDirectSelector, hlen, hlast]
  · intro hlen hlast
    simp [queryDirectSelector, hlen, hlast]
  · intro h
    simp [queryDirectSelector, h]

/-- Arctangent is nonnegative on nonnegative arguments. -/
lemma arctan_nonneg_of_nonneg {x : ℝ} (hx : 0 ≤ x) : 0 ≤ Real.arctan x := by
  have h := Real.arctan_strictMono.monotone hx
  rwa [Real.arctan_zero] at h

/-- Math.atan2 is nonnegative whenever its first argument is. -/
lemma atan2_nonneg {y x : ℝ} (hy : 0 ≤ y) : 0 ≤ atan2 y x := by
  unfold atan2
  split_ifs with h1 h2 h3 h4
  · exact arctan_nonneg_of_nonneg (div_nonneg hy h1.le)
  · linarith [Real.pi_pos]
  · linarith
  · exact le_refl 0
  · linarith [Real.neg_pi_div_two_lt_arctan (y / x), Real.pi_pos]

/-- The haversine distance of the code is nonnegative (at real precision). -/
lemma calcDistanceBetween_nonneg (p q : Point) : 0 ≤ calcDistanceBetween p q := by
  unfold calcDistanceBetween
  exact mul_nonneg (by norm_num)
    (mul_nonneg (by norm_num) (atan2_nonneg (Real.sqrt_nonneg _)))

/-- Every segment distance is nonnegative. -/
lemma segDists_nonneg : ∀ (ps : List Point), ∀ d ∈ segDists ps, 0 ≤ d
  | [] => by intro d hd; simp [segDists] at hd
  | [p] => by intro d hd; simp [segDists] at hd
  | p :: q :: rest => by
      intro d hd
      rw [segDists] at hd
      rcases List.mem_cons.mp hd with h | h
      · exact h ▸ calcDistanceBetween_nonneg p q
      · exact segDists_nonneg (q :: rest) d h

/-- There is one segment distance per adjacent pair. -/
lemma segDists_length : ∀ (ps : List Point), (segDists ps).length = ps.length - 1
  | [] => rfl
  | [_] => rfl
  | p :: q :: rest => by
      rw [segDists]
      simp only [List.length_cons]
      rw [segDists_length (q :: rest)]
      simp

/-- The loop records one running total per segment distance. -/
lemma distLoop_length : ∀ (ds : List ℝ) (acc : ℝ), ((distLoop acc ds).2).length = ds.length
  | [], _ => rfl
  | d :: ds, acc => by
      simp only [distLoop, List.length_cons]
      rw [distLoop_length ds (acc + d)]

/-- With nonnegative increments, the start value followed by the recorded
running totals and the final total is a nondecreasing chain. -/
lemma distLoop_chain : ∀ (ds : List ℝ), (∀ d ∈ ds, 0 ≤ d) → ∀ acc : ℝ,
    List.Chain' (· ≤ ·) (acc :: ((distLoop acc ds).2 ++ [(distLoop acc ds).1]))
  | [], _, acc => by simp [distLoop]
  | d :: ds, h, acc => by
      have hd : 0 ≤ d := h d (List.mem_cons_self d ds)
      have ih := distLoop_chain ds (fun x hx => h x (List.mem_cons_of_mem d hx)) (acc + d)
      simp only [distLoop, List.cons_append]
      rw [List.chain'_cons]
      exact ⟨by linarith, ih⟩

/-- The last recorded running total is the final total (with the start value
as default for the empty list). -/
lemma distLoop_last : ∀ (ds : List ℝ) (acc : ℝ),
    ((distLoop acc ds).2).getLastD acc = (distLoop acc ds).1
  | [], _ => rfl
  | d :: ds, acc => by
      simp only [distLoop]
      rw [List.getLastD_cons]
      exact distLoop_last ds (acc + d)

/-- C2: for every point sequence, the cumulative-distance list has one entry
per point and is nondecreasing; its last entry is the total; for at most one
point the total is 0; the list is [0] for a single point and empty for no
points. -/
theorem calcRouteDistance_cumul_spec (points : List Point) :
    (calcRouteDistance points).cumul.length = points.length ∧
    List.Chain' (· ≤ ·) (calcRouteDistance points).cumul ∧
    (points ≠ [] → (calcRouteDistance points).cumul.getLast? =
      some (calcRouteDistance points).total) ∧
    (points.length ≤ 1 → (calcRouteDistance points).total = 0) ∧
    (points.length = 1 → (calcRouteDistance points).cumul = [0]) ∧
    (points = [] → (calcRouteDistance points).cumul = []) := by
  cases points with
  | nil =>
      refine ⟨rfl, ?_, ?_, ?_, ?_, fun _ => rfl⟩
      · simp [calcRouteDistance, segDists, distLoop]
      · intro h; exact absurd rfl h
      · intro _; rfl
      · intro h; simp at h
  | cons p rest =>
      have hchain := distLoop_chain (segDists (p :: rest)) (segDists_nonneg (p :: rest)) 0
      refine ⟨?_, ?_, ?_, ?_, ?_, ?_⟩
      · show ((distLoop 0 (segDists (p :: rest))).2 ++
          [(distLoop 0 (segDists (p :: rest))).1]).length = (p :: rest).length
        rw [List.length_append, distLoop_length, segDists_length]
        simp
      · exact hchain.tail
      · intro _
        show ((distLoop 0 (segDists (p :: rest))).2 ++
          [(distLoop 0 (segDists (p :: rest))).1]).getLast? = _
        rw [List.getLast?_concat]
        rfl
      · intro hlen
        have : rest = [] := by
          cases rest with
          | nil => rfl
          | cons q r2 => simp at hlen
        subst this
        rfl
      · intro hlen
        have : rest = [] := by
          cases rest with
          | nil => rfl
          | cons q r2 => simp at hlen
        subst this
        rfl
      · intro h; cases h

/-- C8: the haversine distance is symmetric in its two arguments, and the
distance from a point to itself is 0. -/
theorem calcDistanceBetween_symm_and_refl (p1 p2 : Point) :
    calcDistanceBetween p1 p2 = calcDistanceBetween p2 p1 ∧
    calcDistanceBetween p1 p1 = 0 := by
  constructor
  · have key :
        Real.sin ((p2.lat - p1.lat) * (Real.pi / 180) / 2) *
            Real.sin ((p2.lat - p1.lat) * (Real.pi / 180) / 2) +
          Real.cos (p1.lat * (Real.pi / 180)) * Real.cos (p2.lat * (Real.pi / 180)) *
            Real.sin ((p2.lon - p1.lon) * (Real.pi / 180) / 2) *
            Real.sin ((p2.lon - p1.lon) * (Real.pi / 180) / 2) =
        Real.sin ((p1.lat - p2.lat) * (Real.pi / 180) / 2) *
            Real.sin ((p1.lat - p2.lat) * (Real.pi / 180) / 2) +
          Real.cos (p2.lat * (Real.pi / 180)) * Real.cos (p1.lat * (Real.pi / 180)) *
            Real.sin ((p1.lon - p2.lon) * (Real.pi / 180) / 2) *
            Real.sin ((p1.lon - p2.lon) * (Real.pi / 180) / 2) := by
      have h1 : (p1.lat - p2.lat) * (Real.pi / 180) / 2 =
          -((p2.lat - p1.lat) * (Real.pi / 180) / 2) := by ring
      have h2 : (p1.lon - p2.lon) * (Real.pi / 180) / 2 =
          -((p2.lon - p1.lon) * (Real.pi / 180) / 2) := by ring
      rw [h1, h2, Real.sin_neg, Real.sin_neg]
      ring
    simp only [calcDistanceBetween]
    rw [key]
  · simp [calcDistanceBetween, sub_self, Real.sin_zero, Real.sqrt_zero,
      Real.sqrt_one, atan2, Real.arctan_zero]

/-- C9: the haversine distance reads only the lat and lon fields of its two
arguments; elevation, names, times and every other field are immaterial. -/
theorem calcDistanceBetween_latlon_only (p1 p2 q1 q2 : Point)
    (h1 : p1.lat = q1.lat) (h2 : p1.lon = q1.lon)
    (h3 : p2.lat = q2.lat) (h4 : p2.lon = q2.lon) :
    calcDistanceBetween p1 p2 = calcDistanceBetween q1 q2 := by
  simp only [calcDistanceBetween, h1, h2, h3, h4]

/-- C9 witness: two concrete point pairs agreeing on lat and lon but not on
elevation, name or time get the same distance. -/
theorem calcDistanceBetween_latlon_only_witness :
    pA.lat = pA'.lat ∧ pA.lon = pA'.lon ∧ pB.lat = pB.lat ∧ pB.lon = pB.lon ∧
    calcDistanceBetween pA pB = calcDistanceBetween pA' pB :=
  ⟨rfl, rfl, rfl, rfl, calcDistanceBetween_latlon_only pA pB pA' pB rfl rfl rfl rfl⟩

/-- The elevation loop appends exactly the non-null elevations, in order, and
sums them. -/
lemma elevLoop_eq : ∀ (ps : List Point) (acc : List ℚ) (s : ℚ),
    elevLoop acc s ps = (acc ++ ps.filterMap Point.ele, s + (ps.filterMap Point.ele).sum)
  | [], acc, s => by simp [elevLoop]
  | p :: ps, acc, s => by
      cases h : p.ele with
      | none => simp [elevLoop, h, elevLoop_eq ps acc s]
      | some v =>
          simp [elevLoop, h, jsOrZeroQ, elevLoop_eq ps (acc ++ [v]) (s + v), add_assoc]

/-- Folding max from a start value lands on the start value or a list
element. -/
lemma foldl_max_mem : ∀ (xs : List ℚ) (x : ℚ), xs.foldl max x = x ∨ xs.foldl max x ∈ xs
  | [], _ => Or.inl rfl
  | y :: ys, x => by
      rcases foldl_max_mem ys (max x y) with h | h
      · rcases max_choice x y with hm | hm
        · exact Or.inl (by rw [List.foldl_cons, h, hm])
        · exact Or.inr (by rw [List.foldl_cons, h, hm]; exact List.mem_cons_self y ys)
      · exact Or.inr (List.mem_cons_of_mem y (by rw [List.foldl_cons]; exact h))

/-- Folding max bounds the start value and every element from below. -/
lemma le_foldl_max : ∀ (xs : List ℚ) (x : ℚ),
    x ≤ xs.foldl max x ∧ ∀ a ∈ xs, a ≤ xs.foldl max x
  | [], x => ⟨le_refl x, by intro a ha; simp at ha⟩
  | y :: ys, x => by
      obtain ⟨h1, h2⟩ := le_foldl_max ys (max x y)
      refine ⟨le_trans (le_max_left x y) h1, ?_⟩
      intro a ha
      rw [List.foldl_cons]
      rcases List.mem_cons.mp ha with rfl | ha2
      · exact le_trans (le_max_right x a) h1
      · exact h2 a ha2

/-- Folding min from a start value lands on the start value or a list
element. -/
lemma foldl_min_mem : ∀ (xs : List ℚ) (x : ℚ), xs.foldl min x = x ∨ xs.foldl min x ∈ xs
  | [], _ => Or.inl rfl
  | y :: ys, x => by
      rcases foldl_min_mem ys (min x y) with h | h
      · rcases min_choice x y with hm | hm
        · exact Or.inl (by rw [List.foldl_cons, h, hm])
        · exact Or.inr (by rw [List.foldl_cons, h, hm]; exact List.mem_cons_self y ys)
      · exact Or.inr (List.mem_cons_of_mem y (by rw [List.foldl_cons]; exact h))

/-- Folding min bounds the start value and every element from above. -/
lemma foldl_min_le : ∀ (xs : List ℚ) (x : ℚ),
    xs.foldl min x ≤ x ∧ ∀ a ∈ xs, xs.foldl min x ≤ a
  | [], x => ⟨le_refl x, by intro a ha; simp at ha⟩
  | y :: ys, x => by
      obtain ⟨h1, h2⟩ := foldl_min_le ys (min x y)
      refine ⟨le_trans h1 (min_le_left x y), ?_⟩
      intro a ha
      rw [List.foldl_cons]
      rcases List.mem_cons.mp ha with rfl | ha2
      · exact le_trans h1 (min_le_right x a)
      · exact h2 a ha2

/-- The falsy-coerced Math.max of an elevation list is null exactly when the
list is nonempty with maximum exactly 0. -/
lemma jsMathMax_null_iff (l : List ℚ) :
    jsOrNull (jsMathMax l) = none ↔ l ≠ [] ∧ 0 ∈ l ∧ ∀ a ∈ l, a ≤ 0 := by
  cases l with
  | nil => simp [jsMathMax, jsOrNull]
  | cons x xs =>
      simp only [jsMathMax, jsOrNull]
      by_cases h0 : xs.foldl max x = 0
      · simp only [h0, if_pos rfl]
        refine ⟨fun _ => ⟨List.cons_ne_nil x xs, ?_, ?_⟩, fun _ => rfl⟩
        · rcases foldl_max_mem xs x with hm | hm
          · rw [← h0, hm]; exact List.mem_cons_self x xs
          · rw [← h0]; exact List.mem_cons_of_mem x hm
        · obtain ⟨h1, h2⟩ := le_foldl_max xs x
          intro a ha
          rcases List.mem_cons.mp ha with rfl | ha2
          · exact h0 ▸ h1
          · exact h0 ▸ h2 a ha2
      · rw [if_neg h0]
        simp only [reduceCtorEq, false_iff]
        intro hc
        obtain ⟨-, hmem, hb⟩ := hc
        obtain ⟨h1, h2⟩ := le_foldl_max xs x
        have hle : xs.foldl max x ≤ 0 := by
          rcases foldl_max_mem xs x with hm | hm
          · rw [hm]; exact hb x (List.mem_cons_self x xs)
          · exact hb _ (List.mem_cons_of_mem x hm)
        have hge : 0 ≤ xs.foldl max x := by
          rcases List.mem_cons.mp hmem with h | h
          · rw [h]; exact h1
          · exact h2 0 h
        exact h0 (le_antisymm hle hge)

/-- The falsy-coerced Math.max is the minus-infinity sentinel exactly on the
empty elevation list. -/
lemma jsMathMax_negInf_iff (l : List ℚ) :
    jsOrNull (jsMathMax l) = some JSNum.negInf ↔ l = [] := by
  cases l with
  | nil => simp [jsMathMax, jsOrNull]
  | cons x xs =>
      simp only [jsMathMax, jsOrNull]
      split_ifs <;> simp

/-- The falsy-coerced Math.min of an elevation list is null exactly when the
list is nonempty with minimum exactly 0. -/
lemma jsMathMin_null_iff (l : List ℚ) :
    jsOrNull (jsMathMin l) = none ↔ l ≠ [] ∧ 0 ∈ l ∧ ∀ a ∈ l, 0 ≤ a := by
  cases l with
  | nil => simp [jsMathMin, jsOrNull]
  | cons x xs =>
      simp only [jsMathMin, jsOrNull]
      by_cases h0 : xs.foldl min x = 0
      · simp only [h0, if_pos rfl]
        refine ⟨fun _ => ⟨List.cons_ne_nil x xs, ?_, ?_⟩, fun _ => rfl⟩
        · rcases foldl_min_mem xs x with hm | hm
          · rw [← h0, hm]; exact List.mem_cons_self x xs
          · rw [← h0]; exact List.mem_cons_of_mem x hm
        · obtain ⟨h1, h2⟩ := foldl_min_le xs x
          intro a ha
          rcases List.mem_cons.mp ha with rfl | ha2
          · exact h0 ▸ h1
          · exact h0 ▸ h2 a ha2
      · rw [if_neg h0]
        simp only [reduceCtorEq, false_iff]
        intro hc
        obtain ⟨-, hmem, hb⟩ := hc
        obtain ⟨h1, h2⟩ := foldl_min_le xs x
        have hge : 0 ≤ xs.foldl min x := by
          rcases foldl_min_mem xs x with hm | hm
          · rw [hm]; exact hb x (List.mem_cons_self x xs)
          · exact hb _ (List.mem_cons_of_mem x hm)
        have hle : xs.foldl min x ≤ 0 := by
          rcases List.mem_cons.mp hmem with h | h
          · rw [h]; exact h1
          · exact h2 0 h
        exact h0 (le_antisymm hle hge)

/-- The falsy-coerced Math.min is the plus-infinity sentinel exactly on the
empty elevation list. -/
lemma jsMathMin_posInf_iff (l : List ℚ) :
    jsOrNull (jsMathMin l) = some JSNum.posInf ↔ l = [] := by
  cases l with
  | nil => simp [jsMathMin, jsOrNull]
  | cons x xs =>
      simp only [jsMathMin, jsOrNull]
      split_ifs <;> simp

/-- C1 counterexample. The claim says an empty elevation list yields null for
max, min and avg; on the code Math.max() of no arguments is minus infinity
and Math.min() plus infinity, both truthy, so for the empty point sequence
max and min are the infinities and only avg is null. -/
theorem calcElevationStats_empty_not_null :
    (calcElevationStats []).max = some JSNum.negInf ∧
    (calcElevationStats []).min = some JSNum.posInf ∧
    (calcElevationStats []).max ≠ none :=
  ⟨rfl, rfl, fun h => Option.noConfusion
    ((rfl : some JSNum.negInf = (calcElevationStats ([] : List Point)).max).trans h)⟩

/-- C1 amended: avg is null exactly when the elevation list is empty or sums
to exactly 0; max (resp. min) is the minus (resp. plus) infinity sentinel
exactly when the elevation list is empty, and is null exactly when the list
is nonempty with maximum (resp. minimum) exactly 0; pos (resp. neg) is null
exactly when the accumulated positive-only (resp. negative-only) delta sum is
exactly zero; and the elevation list is empty exactly when no point has a
non-null elevation. -/
theorem calcElevationStats_null_characterisation (points : List Point) :
    ((calcElevationStats points).max = none ↔
      points.filterMap Point.ele ≠ [] ∧ 0 ∈ points.filterMap Point.ele ∧
        ∀ a ∈ points.filterMap Point.ele, a ≤ 0) ∧
    ((calcElevationStats points).max = some JSNum.negInf ↔
      points.filterMap Point.ele = []) ∧
    ((calcElevationStats points).min = none ↔
      points.filterMap Point.ele ≠ [] ∧ 0 ∈ points.filterMap Point.ele ∧
        ∀ a ∈ points.filterMap Point.ele, 0 ≤ a) ∧
    ((calcElevationStats points).min = some JSNum.posInf ↔
      points.filterMap Point.ele = []) ∧
    ((calcElevationStats points).avg = none ↔
      points.filterMap Point.ele = [] ∨ (points.filterMap Point.ele).sum = 0) ∧
    ((calcElevationStats points).pos = none ↔ (deltaLoop 0 0 points).1 = 0) ∧
    ((calcElevationStats points).neg = none ↔ (deltaLoop 0 0 points).2 = 0) ∧
    (points.filterMap Point.ele = [] ↔ ∀ p ∈ points, p.ele = none) := by
  have h1 : (elevLoop [] 0 points).1 = points.filterMap Point.ele := by
    rw [elevLoop_eq]
    simp
  have h2 : (elevLoop [] 0 points).2 = (points.filterMap Point.ele).sum := by
    rw [elevLoop_eq]
    simp
  refine ⟨?_, ?_, ?_, ?_, ?_, ?_, ?_, List.filterMap_eq_nil_iff⟩
  · show jsOrNull (jsMathMax (elevLoop [] 0 points).1) = none ↔ _
    rw [h1]
    exact jsMathMax_null_iff (points.filterMap Point.ele)
  · show jsOrNull (jsMathMax (elevLoop [] 0 points).1) = some JSNum.negInf ↔ _
    rw [h1]
    exact jsMathMax_negInf_iff (points.filterMap Point.ele)
  · show jsOrNull (jsMathMin (elevLoop [] 0 points).1) = none ↔ _
    rw [h1]
    exact jsMathMin_null_iff (points.filterMap Point.ele)
  · show jsOrNull (jsMathMin (elevLoop [] 0 points).1) = some JSNum.posInf ↔ _
    rw [h1]
    exact jsMathMin_posInf_iff (points.filterMap Point.ele)
  · show jsOrNull (jsDivLen (elevLoop [] 0 points).2 (elevLoop [] 0 points).1.length)
      = none ↔ _
    rw [h1, h2]
    cases hl : points.filterMap Point.ele with
    | nil => simp [jsDivLen, jsOrNull]
    | cons x xs =>
        simp only [jsDivLen]
        rw [if_neg (by simp)]
        simp only [jsOrNull]
        constructor
        · intro h
          split_ifs at h with hq
          rcases div_eq_zero_iff.mp hq with h' | h'
          · exact Or.inr h'
          · exfalso
            have hc : (0:ℚ) ≤ (xs.length : ℚ) := Nat.cast_nonneg xs.length
            rw [List.length_cons] at h'
            push_cast at h'
            linarith
        · intro h
          rcases h with h | h
          · cases h
          · rw [if_pos (by rw [h, zero_div])]
  · show jsOrNull (JSNum.num |(deltaLoop 0 0 points).1|) = none ↔ _
    simp only [jsOrNull]
    constructor
    · intro h
      split_ifs at h with hq
      exact abs_eq_zero.mp hq
    · intro h
      rw [if_pos (by rw [h, abs_zero])]
  · show jsOrNull (JSNum.num |(deltaLoop 0 0 points).2|) = none ↔ _
    simp only [jsOrNull]
    constructor
    · intro h
      split_ifs at h with hq
      exact abs_eq_zero.mp hq
    · intro h
      rw [if_pos (by rw [h, abs_zero])]

/-- C10: whenever pos or neg is non-null it is a strictly positive finite
number (the descent total neg is reported as a positive magnitude). -/
theorem calcElevationStats_pos_neg_positive (points : List Point) :
    (∀ j, (calcElevationStats points).pos = some j →
      ∃ v : ℚ, j = JSNum.num v ∧ 0 < v) ∧
    (∀ j, (calcElevationStats points).neg = some j →
      ∃ v : ℚ, j = JSNum.num v ∧ 0 < v) := by
  constructor
  · intro j hj
    have hj' : jsOrNull (JSNum.num |(deltaLoop 0 0 points).1|) = some j := hj
    simp only [jsOrNull] at hj'
    split_ifs at hj' with hq
    exact ⟨|(deltaLoop 0 0 points).1|, (Option.some.inj hj').symm,
      lt_of_le_of_ne (abs_nonneg _) (Ne.symm hq)⟩
  · intro j hj
    have hj' : jsOrNull (JSNum.num |(deltaLoop 0 0 points).2|) = some j := hj
    simp only [jsOrNull] at hj'
    split_ifs at hj' with hq
    exact ⟨|(deltaLoop 0 0 points).2|, (Option.some.inj hj').symm,
      lt_of_le_of_ne (abs_nonneg _) (Ne.symm hq)⟩

/-- Pushing one element per list entry onto an accumulator equals appending
the mapped list. -/
lemma foldl_push_eq_map {α β : Type} (f : α → β) :
    ∀ (l : List α) (acc : List β),
      l.foldl (fun cs x => cs ++ [f x]) acc = acc ++ l.map f
  | [], acc => by simp
  | x :: xs, acc => by
      simp only [List.foldl_cons, List.map_cons]
      rw [foldl_push_eq_map f xs (acc ++ [f x])]
      simp

/-- A fold of a push-one-feature step is an append of the mapped feature
list; type and properties are untouched. -/
lemma foldl_push_feature {α : Type} (mkF : α → Feature) (push : GeoJSON → α → GeoJSON)
    (hpush : ∀ gj a, push gj a = ⟨gj.type, gj.features ++ [mkF a], gj.properties⟩) :
    ∀ (l : List α) (gj : GeoJSON),
      l.foldl push gj = ⟨gj.type, gj.features ++ l.map mkF, gj.properties⟩
  | [], gj => by simp
  | x :: xs, gj => by
      rw [List.foldl_cons, hpush, foldl_push_feature mkF push hpush xs]
      simp

/-- C7: toGeoJSON yields a FeatureCollection whose top-level properties equal
the parsed metadata and whose features are one LineString per track in
order, then one LineString per route in order, then one Point per waypoint
in order, each coordinate being the (lon, lat, ele) triplet with a null
elevation replaced by 0. -/
theorem toGeoJSON_spec (g : GPX) :
    (toGeoJSON g).type = "FeatureCollection" ∧
    (toGeoJSON g).properties = g.metadata ∧
    (toGeoJSON g).features =
      g.tracks.map (fun t => Feature.lineString
        (t.points.map (fun pt => (pt.lon, pt.lat, eleOrZero pt.ele)))
        ⟨t.name, t.cmt, t.desc, t.src, t.number, t.link, t.type⟩) ++
      g.routes.map (fun r => Feature.lineString
        (r.points.map (fun pt => (pt.lon, pt.lat, eleOrZero pt.ele)))
        ⟨r.name, r.cmt, r.desc, r.src, r.number, r.link, r.type⟩) ++
      g.waypoints.map (fun pt => Feature.point (pt.lon, pt.lat, eleOrZero pt.ele)
        ⟨pt.name, pt.sym, pt.cmt, pt.desc⟩) := by
  have hc : ∀ ps : List Point,
      ps.foldl (fun cs pt => cs ++ [(pt.lon, pt.lat, eleOrZero pt.ele)]) [] =
        ps.map (fun pt => (pt.lon, pt.lat, eleOrZero pt.ele)) := by
    intro ps
    simpa using foldl_push_eq_map (fun pt : Point => (pt.lon, pt.lat, eleOrZero pt.ele)) ps []
  have hpt : ∀ (gj : GeoJSON) (t : Track), pushTrackFeature gj t =
      ⟨gj.type, gj.features ++ [Feature.lineString
        (t.points.foldl (fun cs pt => cs ++ [(pt.lon, pt.lat, eleOrZero pt.ele)]) [])
        ⟨t.name, t.cmt, t.desc, t.src, t.number, t.link, t.type⟩], gj.properties⟩ :=
    fun _ _ => rfl
  have hpr : ∀ (gj : GeoJSON) (r : Route), pushRouteFeature gj r =
      ⟨gj.type, gj.features ++ [Feature.lineString
        (r.points.foldl (fun cs pt => cs ++ [(pt.lon, pt.lat, eleOrZero pt.ele)]) [])
        ⟨r.name, r.cmt, r.desc, r.src, r.number, r.link, r.type⟩], gj.properties⟩ :=
    fun _ _ => rfl
  have hpw : ∀ (gj : GeoJSON) (pt : Point), pushWptFeature gj pt =
      ⟨gj.type, gj.features ++ [Feature.point (pt.lon, pt.lat, eleOrZero pt.ele)
        ⟨pt.name, pt.sym, pt.cmt, pt.desc⟩], gj.properties⟩ :=
    fun _ _ => rfl
  have ht := foldl_push_feature _ pushTrackFeature hpt g.tracks
  have hr := foldl_push_feature _ pushRouteFeature hpr g.routes
  have hw := foldl_push_feature _ pushWptFeature hpw g.waypoints
  have key : toGeoJSON g =
      ⟨"FeatureCollection",
        g.tracks.map (fun t => Feature.lineString
          (t.points.foldl (fun cs pt => cs ++ [(pt.lon, pt.lat, eleOrZero pt.ele)]) [])
          ⟨t.name, t.cmt, t.desc, t.src, t.number, t.link, t.type⟩) ++
        g.routes.map (fun r => Feature.lineString
          (r.points.foldl (fun cs pt => cs ++ [(pt.lon, pt.lat, eleOrZero pt.ele)]) [])
          ⟨r.name, r.cmt, r.desc, r.src, r.number, r.link, r.type⟩) ++
        g.waypoints.map (fun pt => Feature.point (pt.lon, pt.lat, eleOrZero pt.ele)
          ⟨pt.name, pt.sym, pt.cmt, pt.desc⟩),
        ⟨g.metadata.name, g.metadata.desc, g.metadata.time, g.metadata.author,
          g.metadata.link⟩⟩ := by
    show (g.waypoints.foldl pushWptFeature
      (g.routes.foldl pushRouteFeature (g.tracks.foldl pushTrackFeature
        ⟨"FeatureCollection", [],
          ⟨g.metadata.name, g.metadata.desc, g.metadata.time, g.metadata.author,
            g.metadata.link⟩⟩))) = _
    rw [ht, hr, hw]
    simp
  rw [key]
  refine ⟨rfl, ?_, ?_⟩
  · show Metadata.mk g.metadata.name g.metadata.desc g.metadata.time g.metadata.author
      g.metadata.link = g.metadata
    rfl
  · simp only [hc]

/-- Concrete check that the disambiguation branch is reachable: with a direct
type child next to a nested one, the last matching direct child wins. -/
lemma queryDirectSelector_direct_example :
    1 < (querySelectorAll rteDirectType "type").length ∧
    queryDirectSelector rteDirectType "type" = some typeNodeB := by
  exact ⟨by decide, by rfl⟩

/-- Concrete check that the elevation statistics produce non-null values: a
climb of 5 between two points is reported as pos 5 with neg null. -/
lemma calcElevationStats_gain_example :
    (calcElevationStats [pA, pB]).pos = some (JSNum.num 5) ∧
    (calcElevationStats [pA, pB]).neg = none := by
  constructor <;>
  · simp [calcElevationStats, deltaLoop, elevLoop, jsOrZeroQ, jsOrNull, pA, pB]
    norm_num

/-- Concrete check that the modelled Date constructor accepts an ISO 8601
timestamp. -/
lemma jsNewDate_iso_example :
    jsNewDate "2020-02-02T07:54:30Z" = JSDate.valid 2020 2 2 7 54 30 := by decide
